import Mathlib

/-!
Shallow embedding of the DHT state-reduction engine of holochain-rust
(src/core/src/dht/dht_reducers.rs) and the Holochain facade
(src/core_api/src/lib.rs).

The reducers themselves are translated line by line from
dht_reducers.rs.  The external collaborators they use (the
content-addressable store, the EAV store, the network facade and the
schema lookup) are not under src/; they are modelled from the spec's
interface table (spec §6) as executable structures, with explicit
failure-injection lists standing for the storage's error channel.
Panics (`unwrap` / `expect` in the source) are embedded as the
`Except.error` case of the result; observable side effects (storage
adds, network publishes, network gets) are additionally logged in an
effect trace so that claims about "never invoked / exactly once" are
statable.
-/

/-- Decidable equality for `Except`, so that concrete reduction
outcomes can be checked by `decide`. -/
instance {ε α : Type} [DecidableEq ε] [DecidableEq α] : DecidableEq (Except ε α) :=
  fun x y =>
    match x, y with
    | .ok a, .ok b =>
      if h : a = b then .isTrue (h ▸ rfl)
      else .isFalse (fun hc => h (Except.ok.inj hc))
    | .error a, .error b =>
      if h : a = b then .isTrue (h ▸ rfl)
      else .isFalse (fun hc => h (Except.error.inj hc))
    | .ok _, .error _ => .isFalse (fun hc => Except.noConfusion hc)
    | .error _, .ok _ => .isFalse (fun hc => Except.noConfusion hc)

namespace Holo

/-- Modelled from the spec: an entry's type tag distinguishes
system-reserved types from application-defined types; system types have
a fixed publishability rule, independent of any loaded schema
(spec §4.2), carried here as the `publishable` flag of the `Sys`
constructor. -/
inductive EntryType where
  | App (name : String)
  | Sys (publishable : Bool)
deriving DecidableEq, Repr

/-- Rust `EntryType::is_sys`. -/
def EntryType.is_sys : EntryType → Bool
  | .App _ => false
  | .Sys _ => true

/-- Modelled from the spec: `EntryType::can_publish` — system types have
a fixed publishability rule (spec §4.2); the reducers consult it only
for system types. -/
def EntryType.can_publish : EntryType → Bool
  | .App _ => true
  | .Sys b => b

/-- Rust `EntryType::to_string`, used only as the schema-lookup key for
application types. -/
def EntryType.to_string : EntryType → String
  | .App name => name
  | .Sys _ => "%sys"

/-- An entry: an immutable content-addressed unit of data (spec §3). -/
structure Entry where
  entryType : EntryType
  content : String
deriving DecidableEq, Repr

/-- Modelled from the spec: the address is a pure function of content
and type (content-addressing law, spec §3); the deterministic hash is
embedded as the (type, content) pair itself, which satisfies exactly the
injectivity the law demands. -/
abbrev Address := EntryType × String

/-- Rust `entry.address()`. -/
def Entry.address (e : Entry) : Address := (e.entryType, e.content)

/-- Modelled from the spec: the serialized wire content of an entry; the
network facade's `get` returns such content and `Entry::from_content`
deserializes it.  Serialization round-trips, so the serialized form is
embedded as the entry itself. -/
abbrev Content := Entry

/-- Rust `Entry::from_content`. -/
def Entry.from_content (c : Content) : Entry := c

/-- Modelled from the spec: content storage, `add / contains / fetch`,
content-addressed (spec §6).  `entries` is the stored content;
`addFails` and `containsFails` inject the storage error channel
(`Result::Err`) that the reducers must cope with. -/
structure CAS where
  entries : List Entry
  addFails : List Entry
  containsFails : List Address
deriving DecidableEq, Repr

/-- Rust `ContentAddressableStorage::contains(address) -> Result<bool, Err>`. -/
def CAS.contains (cas : CAS) (a : Address) : Except String Bool :=
  if a ∈ cas.containsFails then .error "storage error"
  else .ok (cas.entries.any (fun e => e.address = a))

/-- Rust `ContentAddressableStorage::add(entry) -> Result<(), Err>`;
returns the result together with the storage after the call. -/
def CAS.add (cas : CAS) (e : Entry) : Except String Unit × CAS :=
  if e ∈ cas.addFails then (.error "storage error", cas)
  else (.ok (), { cas with entries := cas.entries ++ [e] })

/-- Modelled from the spec: the EAV attribute store, reserved for link
indexing and not exercised by the current reductions (spec §6). -/
structure EAV where
  rows : List (String × String × String)
deriving DecidableEq, Repr

/-- Modelled from the spec: the network facade — `publish(entry)` is
fire-and-forget, `get(address)` fetches content from peers or fails
(spec §6).  `sources` is the peers' answer table; `published` records
every publish call. -/
structure Network where
  sources : List (Address × Content)
  published : List Entry
deriving DecidableEq, Repr

/-- Rust network facade `get(address) -> Option<content>`. -/
def Network.get (n : Network) (a : Address) : Option Content :=
  (n.sources.find? (fun p => p.1 = a)).map (fun p => p.2)

/-- Rust network facade `publish(entry)`. -/
def Network.publish (n : Network) (e : Entry) : Network :=
  { n with published := n.published ++ [e] }

/-- The DhtStore snapshot: content storage, EAV storage and network
handles (dht_store.rs, spec §3). -/
structure DhtStore where
  content_storage : CAS
  eav_storage : EAV
  network : Network
deriving DecidableEq, Repr

/-- Modelled from the spec: an entry-type definition of the loaded
application, carrying the sharing policy (spec §3). -/
inductive Sharing where
  | Public
  | Private'
  | Encrypted
deriving DecidableEq, Repr

/-- Rust `Sharing::can_publish`: only `Public` permits publishing. -/
def Sharing.can_publish : Sharing → Bool
  | .Public => true
  | _ => false

/-- An application entry-type definition (spec §3). -/
structure EntryTypeDef where
  sharing : Sharing
deriving DecidableEq, Repr

/-- Modelled from the spec: the loaded application definition, a
read-only lookup from entry-type name to its definition (spec §6). -/
structure Dna where
  entry_types : List (String × EntryTypeDef)
deriving DecidableEq, Repr

/-- Rust `Dna::get_entry_type_def(type_name) -> Option<TypeDef>`. -/
def Dna.get_entry_type_def (dna : Dna) (name : String) : Option EntryTypeDef :=
  (dna.entry_types.find? (fun p => p.1 = name)).map (fun p => p.2)

/-- Modelled from the spec: the nucleus slice of the instance state,
holding the optionally loaded application definition. -/
structure NucleusState where
  dna : Option Dna
deriving DecidableEq, Repr

/-- Modelled from the spec: the instance state; only its nucleus slice
is consulted by the DHT reducers. -/
structure State where
  nucleus : NucleusState
deriving DecidableEq, Repr

/-- The execution context passed to every reducer; `context.state()`
returns the optionally initialized instance state. -/
structure Context where
  state : Option State
deriving DecidableEq, Repr

/-- Modelled from the spec: the payload of an AddLink action (link
operations are reserved stubs, spec §4.6). -/
structure Link where
  base : Address
  target : Address
  tag : String
deriving DecidableEq, Repr

/-- Modelled from the spec: the payload of a GetLinks action. -/
structure GetLinksArgs where
  entry_address : Address
  tag : String
deriving DecidableEq, Repr

/-- The action variants dispatched to the DHT reducers; `other` stands
for the variants of the full `Action` enum that belong to other state
slices and fall through the dispatch table (spec §4.1). -/
inductive Action where
  | commit (entry : Entry)
  | getEntry (address : Address)
  | addLink (link : Link)
  | getLinks (args : GetLinksArgs)
  | other (tag : String)
deriving DecidableEq, Repr

/-- Action plus action-identity metadata (spec §3). -/
structure ActionWrapper where
  action : Action
  id : String
deriving DecidableEq, Repr

/-- The observable side effects a reduction performs on the external
collaborators, logged in call order. -/
inductive Effect where
  | casAdd (entry : Entry)
  | publish (entry : Entry)
  | netGet (address : Address)
deriving DecidableEq, Repr

/-- Outcome of one reduction function: `Except.error` embeds a Rust
panic (`unwrap` / `expect`), `Except.ok none` is "no change",
`Except.ok (some s)` a new store; paired with the effect trace. -/
abbrev ROutcome := Except String (Option DhtStore) × List Effect

/-- Rust type `DhtReducer`: a function that might return a mutated
DhtStore. -/
abbrev DhtReducer := Context → DhtStore → ActionWrapper → ROutcome

/-- Rust `commit_sys_entry` (dht_reducers.rs lines 58–80): system entry
type must be publishable; add it to local storage; system entries are
not published to the network. -/
def commit_sys_entry (_context : Context) (old_store : DhtStore)
    (entry : Entry) : ROutcome :=
  if entry.entryType.can_publish then
    match old_store.content_storage.add entry with
    | (.error _, _) => (.ok none, [Effect.casAdd entry])
    | (.ok _, new_cas) =>
        (.ok (some { old_store with content_storage := new_cas }),
         [Effect.casAdd entry])
  else (.ok none, [])

/-- Rust `commit_app_entry` (dht_reducers.rs lines 83–123): the context
must hold a State with a DNA (`expect`, embedded as `Except.error`); the
DNA must define the entry's type and the definition's sharing must
permit publishing; then add to local storage and publish to the
network. -/
def commit_app_entry (context : Context) (old_store : DhtStore)
    (entry : Entry) : ROutcome :=
  match context.state with
  | none => (.error "context must have a State.", [])
  | some state =>
    match state.nucleus.dna with
    | none =>
        (.error "context.state must hold DNA in order to commit an app entry.", [])
    | some dna =>
      match dna.get_entry_type_def entry.entryType.to_string with
      | none => (.ok none, [])
      | some entry_type_def =>
        if entry_type_def.sharing.can_publish then
          match old_store.content_storage.add entry with
          | (.error _, _) => (.ok none, [Effect.casAdd entry])
          | (.ok _, new_cas) =>
              (.ok (some { old_store with
                             content_storage := new_cas,
                             network := old_store.network.publish entry }),
               [Effect.casAdd entry, Effect.publish entry])
        else (.ok none, [])

/-- Rust `reduce_commit_entry` (dht_reducers.rs lines 126–153): the
entry must not already be in local storage (`contains(..).unwrap()` —
a storage error here is a panic, embedded as `Except.error`); then sys
and app entries are handled by their own commit functions. -/
def reduce_commit_entry (context : Context) (old_store : DhtStore)
    (action_wrapper : ActionWrapper) : ROutcome :=
  match action_wrapper.action with
  | Action.commit entry =>
    match old_store.content_storage.contains entry.address with
    | .error e => (.error e, [])
    | .ok true => (.ok none, [])
    | .ok false =>
      if entry.entryType.is_sys then commit_sys_entry context old_store entry
      else commit_app_entry context old_store entry
  | _ => (.error "unwrap_to failed", [])

/-- Rust `reduce_get_entry_from_network` (dht_reducers.rs lines
156–188): reject if the address is already stored (`unwrap` on a
storage error is a panic); otherwise fetch from the network, and on
success add the deserialized entry to local storage. -/
def reduce_get_entry_from_network (_context : Context) (old_store : DhtStore)
    (action_wrapper : ActionWrapper) : ROutcome :=
  match action_wrapper.action with
  | Action.getEntry address =>
    match old_store.content_storage.contains address with
    | .error e => (.error e, [])
    | .ok true => (.ok none, [])
    | .ok false =>
      match old_store.network.get address with
      | none => (.ok none, [Effect.netGet address])
      | some content =>
        let entry := Entry.from_content content
        match old_store.content_storage.add entry with
        | (.error _, _) =>
            (.ok none, [Effect.netGet address, Effect.casAdd entry])
        | (.ok _, new_cas) =>
            (.ok (some { old_store with content_storage := new_cas }),
             [Effect.netGet address, Effect.casAdd entry])
  | _ => (.error "unwrap_to failed", [])

/-- Rust `reduce_add_link` (dht_reducers.rs lines 191–202): an
unimplemented stub returning no change. -/
def reduce_add_link (_context : Context) (_old_store : DhtStore)
    (_action_wrapper : ActionWrapper) : ROutcome :=
  (.ok none, [])

/-- Rust `reduce_get_links` (dht_reducers.rs lines 205–216): an
unimplemented stub returning no change. -/
def reduce_get_links (_context : Context) (_old_store : DhtStore)
    (_action_wrapper : ActionWrapper) : ROutcome :=
  (.ok none, [])

/-- Rust `resolve_reducer` (dht_reducers.rs lines 43–55): maps an
incoming action to the correct reducer; variants outside the table get
`none`. -/
def resolve_reducer (action_wrapper : ActionWrapper) : Option DhtReducer :=
  match action_wrapper.action with
  | Action.commit _ => some reduce_commit_entry
  | Action.getEntry _ => some reduce_get_entry_from_network
  | Action.addLink _ => some reduce_add_link
  | Action.getLinks _ => some reduce_get_links
  | Action.other _ => none

/-- Rust `reduce` (dht_reducers.rs lines 19–40): the DHT state-slice
reduce entry point.  No resolved reducer, or a reducer returning `None`,
yields the old store; a panic inside the reducer propagates. -/
def reduce (context : Context) (old_store : DhtStore)
    (action_wrapper : ActionWrapper) : Except String DhtStore × List Effect :=
  match resolve_reducer action_wrapper with
  | none => (.ok old_store, [])
  | some reducer =>
    match reducer context old_store action_wrapper with
    | (.error msg, effects) => (.error msg, effects)
    | (.ok none, effects) => (.ok old_store, effects)
    | (.ok (some new_store), effects) => (.ok new_store, effects)

/-! The Holochain facade of src/core_api/src/lib.rs. -/

/-- The error type of the facade; only the variants the facade's
own code produces are modelled. -/
inductive HolochainError where
  | InstanceActive
  | InstanceNotActive
  | ErrorGeneric (msg : String)
deriving DecidableEq, Repr

/-- Rust `ZomeFnCall::new(zome, cap, fn_name, params)`. -/
structure ZomeFnCall where
  zome : String
  cap : String
  fn_name : String
  parameters : String
deriving DecidableEq, Repr

/-- Modelled from the spec: the running instance, consumed by the
facade only through `call_and_wait_for_result`; its answer table maps a
zome function call to the result string it would produce. -/
structure Instance where
  answers : List (ZomeFnCall × String)
deriving DecidableEq, Repr

/-- Modelled from the spec: `call_and_wait_for_result(zome_call,
instance)` — the process that turns a function invocation into actions
and waits for the correlated result (spec §1, out of scope); embedded
as a lookup in the instance's answer table. -/
def call_and_wait_for_result (zome_call : ZomeFnCall) (inst : Instance) :
    Except HolochainError String :=
  match inst.answers.find? (fun p => p.1 = zome_call) with
  | some p => .ok p.2
  | none => .error (.ErrorGeneric "Zome function not found")

/-- Rust `struct Holochain` (core_api/src/lib.rs): a Holochain
application instance with its activity flag (the Rust field `instance`
is named `inst` here because `instance` is reserved in Lean). -/
structure Holochain where
  inst : Instance
  active : Bool
deriving DecidableEq, Repr

/-- Rust `Holochain::start` (core_api/src/lib.rs lines 101–107). -/
def Holochain.start (h : Holochain) : Except HolochainError Unit × Holochain :=
  if h.active then (.error .InstanceActive, h)
  else (.ok (), { h with active := true })

/-- Rust `Holochain::stop` (core_api/src/lib.rs lines 110–116). -/
def Holochain.stop (h : Holochain) : Except HolochainError Unit × Holochain :=
  if !h.active then (.error .InstanceNotActive, h)
  else (.ok (), { h with active := false })

/-- Rust `Holochain::call` (core_api/src/lib.rs lines 119–133): an
inactive instance is refused before any zome call is constructed.  The
third component records the zome function calls actually dispatched to
the instance. -/
def Holochain.call (h : Holochain) (zome cap fn_name params : String) :
    Except HolochainError String × Holochain × List ZomeFnCall :=
  if !h.active then (.error .InstanceNotActive, h, [])
  else
    let zome_call : ZomeFnCall := ⟨zome, cap, fn_name, params⟩
    (call_and_wait_for_result zome_call h.inst, h, [zome_call])

/-- Rust `Holochain::active`. -/
def Holochain.is_active (h : Holochain) : Bool := h.active

/-! Concrete sample data used by witnesses and counterexamples. -/

/-- A sample application entry of declared type "post". -/
def appEntry : Entry := { entryType := .App "post", content := "hello" }

/-- A sample publishable system entry. -/
def sysEntry : Entry := { entryType := .Sys true, content := "sysdata" }

/-- An empty, never-failing content store. -/
def emptyCAS : CAS := { entries := [], addFails := [], containsFails := [] }

/-- An empty snapshot: empty storage, empty EAV rows, no peers, nothing
published. -/
def store0 : DhtStore :=
  { content_storage := emptyCAS
    eav_storage := { rows := [] }
    network := { sources := [], published := [] } }

/-- A loaded application definition declaring the "post" type as
publicly shared. -/
def dna0 : Dna := { entry_types := [("post", { sharing := .Public })] }

/-- A context whose state holds `dna0`. -/
def ctx0 : Context := { state := some { nucleus := { dna := some dna0 } } }

/-- A snapshot whose content storage fails its `contains` check at
`appEntry`'s address: the storage error channel the spec says the
reducers tolerate. -/
def containsFailStore : DhtStore :=
  { store0 with content_storage := { emptyCAS with containsFails := [appEntry.address] } }

/-- The requested address of the C7 scenario. -/
def aReq : Address := (EntryType.App "post", "x")

/-- A fetched entry whose re-derived address differs from `aReq`. -/
def eBad : Entry := { entryType := EntryType.App "post", content := "y" }

/-- A snapshot whose only peer answers `aReq` with the mismatching
content `eBad`. -/
def mismatchStore : DhtStore :=
  { store0 with network := { sources := [(aReq, eBad)], published := [] } }

/-- The preconditions under which the amended totality claim holds:
the storage's `contains` succeeds at the address the action touches,
and an application-entry commit finds a loaded DNA in the context. -/
def reduce_total_preconditions (ctx : Context) (s : DhtStore)
    (aw : ActionWrapper) : Prop :=
  match aw.action with
  | Action.commit e =>
      e.address ∉ s.content_storage.containsFails ∧
      (e.entryType.is_sys = false →
        ∃ st dna, ctx.state = some st ∧ st.nucleus.dna = some dna)
  | Action.getEntry a => a ∉ s.content_storage.containsFails
  | _ => True

/-! Helper lemmas about the dispatch machinery. -/

/-- A Commit action resolves to `reduce_commit_entry`. -/
lemma resolve_commit {aw : ActionWrapper} {e : Entry}
    (haw : aw.action = Action.commit e) :
    resolve_reducer aw = some reduce_commit_entry := by
  unfold resolve_reducer
  rw [haw]

/-- A GetEntry action resolves to `reduce_get_entry_from_network`. -/
lemma resolve_getEntry {aw : ActionWrapper} {a : Address}
    (haw : aw.action = Action.getEntry a) :
    resolve_reducer aw = some reduce_get_entry_from_network := by
  unfold resolve_reducer
  rw [haw]

/-- `reduce` through a resolved reducer is determined by that reducer's
outcome. -/
lemma reduce_via (ctx : Context) (s : DhtStore) (aw : ActionWrapper)
    (r : DhtReducer) (hres : resolve_reducer aw = some r) :
    reduce ctx s aw =
      match r ctx s aw with
      | (.error msg, effs) => (.error msg, effs)
      | (.ok none, effs) => (.ok s, effs)
      | (.ok (some ns), effs) => (.ok ns, effs) := by
  unfold reduce
  rw [hres]

/-- When `contains` does not hit the storage error channel it reports
whether some stored entry has the address. -/
lemma contains_eval (cas : CAS) (a : Address) (h : a ∉ cas.containsFails) :
    cas.contains a = .ok (cas.entries.any (fun e => e.address = a)) := by
  unfold CAS.contains
  simp [h]

/-- `commit_sys_entry` never panics: every outcome is `Except.ok`. -/
lemma commit_sys_entry_no_panic (ctx : Context) (s : DhtStore) (e : Entry) :
    ∃ r effs, commit_sys_entry ctx s e = (Except.ok r, effs) := by
  unfold commit_sys_entry CAS.add
  by_cases hcp : e.entryType.can_publish = true
  · by_cases hmem : e ∈ s.content_storage.addFails
    · simp only [hcp, if_true, hmem]
      exact ⟨_, _, rfl⟩
    · simp only [hcp, if_true, hmem, if_neg, ite_false]
      exact ⟨_, _, rfl⟩
  · simp only [hcp, ite_false]
    exact ⟨_, _, rfl⟩

/-- `commit_app_entry` never panics provided the context holds a state
with a loaded DNA. -/
lemma commit_app_entry_no_panic (ctx : Context) (s : DhtStore) (e : Entry)
    (st : State) (dna : Dna) (hst : ctx.state = some st)
    (hdna : st.nucleus.dna = some dna) :
    ∃ r effs, commit_app_entry ctx s e = (Except.ok r, effs) := by
  unfold commit_app_entry CAS.add
  simp only [hst, hdna]
  cases hdef : dna.get_entry_type_def e.entryType.to_string with
  | none =>
    simp only [hdef]
    exact ⟨_, _, rfl⟩
  | some d =>
    simp only [hdef]
    by_cases hsh : d.sharing.can_publish = true
    · by_cases hmem : e ∈ s.content_storage.addFails
      · simp only [hsh, if_true, hmem]
        exact ⟨_, _, rfl⟩
      · simp only [hsh, if_true, hmem, ite_false]
        exact ⟨_, _, rfl⟩
    · simp only [hsh, ite_false]
      exact ⟨_, _, rfl⟩

/-- `reduce_commit_entry` never panics provided `contains` succeeds at
the entry's address and, for application entries, a DNA is loaded. -/
lemma reduce_commit_entry_no_panic (ctx : Context) (s : DhtStore)
    (aw : ActionWrapper) (e : Entry) (haw : aw.action = Action.commit e)
    (hcf : e.address ∉ s.content_storage.containsFails)
    (hdna : e.entryType.is_sys = false →
      ∃ st dna, ctx.state = some st ∧ st.nucleus.dna = some dna) :
    ∃ r effs, reduce_commit_entry ctx s aw = (Except.ok r, effs) := by
  unfold reduce_commit_entry
  simp only [haw]
  rw [contains_eval _ _ hcf]
  cases hb : s.content_storage.entries.any (fun x => x.address = e.address) with
  | false =>
    simp only [hb]
    cases hsys : e.entryType.is_sys with
    | false =>
      obtain ⟨st, dna, hst, hd⟩ := hdna hsys
      simp only [hsys, Bool.false_eq_true, if_false, ite_false]
      exact commit_app_entry_no_panic ctx s e st dna hst hd
    | true =>
      simp only [hsys, if_true]
      exact commit_sys_entry_no_panic ctx s e
  | true =>
    simp only [hb]
    exact ⟨_, _, rfl⟩

/-- `reduce_get_entry_from_network` never panics provided `contains`
succeeds at the requested address. -/
lemma reduce_get_entry_no_panic (ctx : Context) (s : DhtStore)
    (aw : ActionWrapper) (a : Address) (haw : aw.action = Action.getEntry a)
    (hcf : a ∉ s.content_storage.containsFails) :
    ∃ r effs, reduce_get_entry_from_network ctx s aw = (Except.ok r, effs) := by
  unfold reduce_get_entry_from_network
  simp only [haw]
  rw [contains_eval _ _ hcf]
  cases hb : s.content_storage.entries.any (fun x => x.address = a) with
  | false =>
    simp only [hb]
    cases hget : s.network.get a with
    | none =>
      simp only [hget]
      exact ⟨_, _, rfl⟩
    | some c =>
      simp only [hget]
      unfold CAS.add
      by_cases hmem : Entry.from_content c ∈ s.content_storage.addFails
      · simp only [hmem, if_true]
        exact ⟨_, _, rfl⟩
      · simp only [hmem, ite_false]
        exact ⟨_, _, rfl⟩
  | true =>
    simp only [hb]
    exact ⟨_, _, rfl⟩

/-- A panic outcome is never an ok outcome. -/
lemma outcome_err_ne_ok {m : String} {s₁ : DhtStore} {l1 l2 : List Effect}
    (h : ((Except.error m, l1) : Except String DhtStore × List Effect) =
      (Except.ok s₁, l2)) : False :=
  Except.noConfusion (congrArg Prod.fst h)

/-- Components of equal ok outcomes are equal. -/
lemma outcome_ok_inj {X s₁ : DhtStore} {l1 l2 : List Effect}
    (h : ((Except.ok X, l1) : Except String DhtStore × List Effect) =
      (Except.ok s₁, l2)) : X = s₁ ∧ l1 = l2 :=
  ⟨Except.ok.inj (congrArg Prod.fst h), congrArg Prod.snd h⟩

/-- A Commit whose address is already stored reduces to the unchanged
snapshot with no effects. -/
lemma reduce_commit_already (ctx : Context) (s : DhtStore) (aw : ActionWrapper)
    (e : Entry) (haw : aw.action = Action.commit e)
    (h : s.content_storage.contains e.address = .ok true) :
    reduce ctx s aw = (.ok s, []) := by
  rw [reduce_via ctx s aw reduce_commit_entry (resolve_commit haw)]
  unfold reduce_commit_entry
  simp only [haw, h]

/-- Inversion: a Commit reduction that produced a snapshot different
from the old one must have passed the duplicate check and appended
exactly its entry to the content storage, leaving the failure oracles
untouched. -/
lemma reduce_commit_changed_inv (ctx : Context) (s : DhtStore)
    (aw : ActionWrapper) (e : Entry) (s₁ : DhtStore) (effs : List Effect)
    (haw : aw.action = Action.commit e)
    (h : reduce ctx s aw = (Except.ok s₁, effs)) (hne : s₁ ≠ s) :
    s.content_storage.contains e.address = .ok false ∧
    s₁.content_storage =
      { s.content_storage with entries := s.content_storage.entries ++ [e] } := by
  rw [reduce_via ctx s aw reduce_commit_entry (resolve_commit haw)] at h
  unfold reduce_commit_entry at h
  simp only [haw] at h
  cases hc : s.content_storage.contains e.address with
  | error msg =>
    simp only [hc] at h
    exact (outcome_err_ne_ok h).elim
  | ok b =>
    cases b with
    | true =>
      simp only [hc] at h
      exact absurd (outcome_ok_inj h).1.symm hne
    | false =>
      simp only [hc] at h
      refine ⟨rfl, ?_⟩
      by_cases hsys : e.entryType.is_sys = true
      · simp only [if_pos hsys] at h
        unfold commit_sys_entry CAS.add at h
        by_cases hcp : e.entryType.can_publish = true
        · by_cases hmem : e ∈ s.content_storage.addFails
          · simp only [if_pos hcp, if_pos hmem] at h
            exact absurd (outcome_ok_inj h).1.symm hne
          · simp only [if_pos hcp, if_neg hmem] at h
            rw [← (outcome_ok_inj h).1]
        · simp only [if_neg hcp] at h
          exact absurd (outcome_ok_inj h).1.symm hne
      · simp only [if_neg hsys] at h
        unfold commit_app_entry CAS.add at h
        cases hst : ctx.state with
        | none =>
          simp only [hst] at h
          exact (outcome_err_ne_ok h).elim
        | some st =>
          simp only [hst] at h
          cases hd : st.nucleus.dna with
          | none =>
            simp only [hd] at h
            exact (outcome_err_ne_ok h).elim
          | some dna =>
            simp only [hd] at h
            cases hdef : dna.get_entry_type_def e.entryType.to_string with
            | none =>
              simp only [hdef] at h
              exact absurd (outcome_ok_inj h).1.symm hne
            | some d =>
              simp only [hdef] at h
              by_cases hsh : d.sharing.can_publish = true
              · by_cases hmem : e ∈ s.content_storage.addFails
                · simp only [if_pos hsh, if_pos hmem] at h
                  exact absurd (outcome_ok_inj h).1.symm hne
                · simp only [if_pos hsh, if_neg hmem] at h
                  rw [← (outcome_ok_inj h).1]
              · simp only [if_neg hsh] at h
                exact absurd (outcome_ok_inj h).1.symm hne

/-! Claim theorems. -/

/-- C1 (amended): `reduce` never fails or panics on a well-formed
action provided the content-storage `contains` operation succeeds at
the address involved and, for commits of application entries, the
context's state holds a loaded application definition; without those
provisos the source panics (see the counterexample), and every
rejection is signalled by an `Except.ok` outcome. -/
theorem C1_reduce_total_under_preconditions :
    ∀ (ctx : Context) (s : DhtStore) (aw : ActionWrapper),
      reduce_total_preconditions ctx s aw →
      ∃ s' effs, reduce ctx s aw = (Except.ok s', effs) := by
  intro ctx s aw h
  cases haw : aw.action with
  | commit e =>
    unfold reduce_total_preconditions at h
    rw [haw] at h
    obtain ⟨hcf, hdna⟩ := h
    obtain ⟨r, effs, hr⟩ := reduce_commit_entry_no_panic ctx s aw e haw hcf hdna
    rw [reduce_via ctx s aw reduce_commit_entry (resolve_commit haw)]
    cases r with
    | none =>
      simp only [hr]
      exact ⟨_, _, rfl⟩
    | some ns =>
      simp only [hr]
      exact ⟨_, _, rfl⟩
  | getEntry a =>
    unfold reduce_total_preconditions at h
    rw [haw] at h
    obtain ⟨r, effs, hr⟩ := reduce_get_entry_no_panic ctx s aw a haw h
    rw [reduce_via ctx s aw reduce_get_entry_from_network (resolve_getEntry haw)]
    cases r with
    | none =>
      simp only [hr]
      exact ⟨_, _, rfl⟩
    | some ns =>
      simp only [hr]
      exact ⟨_, _, rfl⟩
  | addLink l =>
    exact ⟨s, [], by unfold reduce resolve_reducer reduce_add_link; rw [haw]⟩
  | getLinks q =>
    exact ⟨s, [], by unfold reduce resolve_reducer reduce_get_links; rw [haw]⟩
  | other t =>
    exact ⟨s, [], by unfold reduce resolve_reducer; rw [haw]⟩

/-- C1 witness: the amended totality theorem applied to a concrete
app-entry commit in a healthy environment. -/
theorem C1_witness :
    ∃ s' effs, reduce ctx0 store0 ⟨Action.commit appEntry, "id4"⟩ =
      (Except.ok s', effs) :=
  C1_reduce_total_under_preconditions ctx0 store0 ⟨Action.commit appEntry, "id4"⟩
    ⟨by decide, fun _ => ⟨{ nucleus := { dna := some dna0 } }, dna0, rfl, rfl⟩⟩

/-- C2: a Commit whose entry address is already stored produces no
change; and whenever a Commit did change the snapshot, re-reducing the
same Commit on the new snapshot leaves it unchanged, with the address
stored exactly once. -/
theorem C2_commit_idempotence_rejection :
    ∀ (ctx : Context) (s : DhtStore) (aw : ActionWrapper) (e : Entry),
      aw.action = Action.commit e →
      (s.content_storage.contains e.address = .ok true →
        reduce ctx s aw = (.ok s, [])) ∧
      (∀ (s₁ : DhtStore) (effs : List Effect),
        reduce ctx s aw = (Except.ok s₁, effs) → s₁ ≠ s →
        reduce ctx s₁ aw = (.ok s₁, []) ∧
        s₁.content_storage.entries.countP
          (fun x => x.address = e.address) = 1) := by
  intro ctx s aw e haw
  constructor
  · intro h
    exact reduce_commit_already ctx s aw e haw h
  · intro s₁ effs h hne
    obtain ⟨hc, hcas⟩ := reduce_commit_changed_inv ctx s aw e s₁ effs haw h hne
    have hcf : e.address ∉ s.content_storage.containsFails := by
      intro hmem
      unfold CAS.contains at hc
      simp [hmem] at hc
    have hany : s.content_storage.entries.any
        (fun x => x.address = e.address) = false := by
      rw [contains_eval _ _ hcf] at hc
      exact Except.ok.inj hc
    constructor
    · apply reduce_commit_already ctx s₁ aw e haw
      rw [hcas]
      unfold CAS.contains
      simp [hcf, List.any_append]
    · rw [hcas]
      show (s.content_storage.entries ++ [e]).countP
        (fun x => x.address = e.address) = 1
      rw [List.countP_append]
      have h0 : s.content_storage.entries.countP
          (fun x => x.address = e.address) = 0 := by
        rw [List.countP_eq_zero]
        intro x hx
        exact List.any_eq_false.mp hany x hx
      rw [h0]
      simp [List.countP_cons]

/-- A Commit of a system entry that passed the duplicate check reduces
through `commit_sys_entry`. -/
lemma reduce_commit_sys_path (ctx : Context) (s : DhtStore) (aw : ActionWrapper)
    (e : Entry) (haw : aw.action = Action.commit e)
    (hsys : e.entryType.is_sys = true)
    (hc : s.content_storage.contains e.address = .ok false) :
    reduce ctx s aw =
      match commit_sys_entry ctx s e with
      | (.error msg, effs) => (.error msg, effs)
      | (.ok none, effs) => (.ok s, effs)
      | (.ok (some ns), effs) => (.ok ns, effs) := by
  rw [reduce_via ctx s aw reduce_commit_entry (resolve_commit haw)]
  unfold reduce_commit_entry
  simp only [haw, hc, hsys, if_true]

/-- A Commit of an application entry that passed the duplicate check
reduces through `commit_app_entry`. -/
lemma reduce_commit_app_path (ctx : Context) (s : DhtStore) (aw : ActionWrapper)
    (e : Entry) (haw : aw.action = Action.commit e)
    (hsys : e.entryType.is_sys = false)
    (hc : s.content_storage.contains e.address = .ok false) :
    reduce ctx s aw =
      match commit_app_entry ctx s e with
      | (.error msg, effs) => (.error msg, effs)
      | (.ok none, effs) => (.ok s, effs)
      | (.ok (some ns), effs) => (.ok ns, effs) := by
  rw [reduce_via ctx s aw reduce_commit_entry (resolve_commit haw)]
  unfold reduce_commit_entry
  simp only [haw, hc, hsys, Bool.false_eq_true, if_false, ite_false]

/-- C3: committing a system entry that passed the duplicate check adds
it to local content storage and never invokes the network facade's
publish; a system entry whose type is not publishable-capable produces
no change at all. -/
theorem C3_commit_sys_entry :
    ∀ (ctx : Context) (s : DhtStore) (aw : ActionWrapper) (e : Entry),
      aw.action = Action.commit e → e.entryType.is_sys = true →
      s.content_storage.contains e.address = .ok false →
      ((e.entryType.can_publish = true → e ∉ s.content_storage.addFails →
        reduce ctx s aw =
          (.ok { s with content_storage :=
            { s.content_storage with
                entries := s.content_storage.entries ++ [e] } },
           [Effect.casAdd e])) ∧
       (e.entryType.can_publish = false → reduce ctx s aw = (.ok s, [])) ∧
       (∀ x, Effect.publish x ∉ (reduce ctx s aw).2)) := by
  intro ctx s aw e haw hsys hc
  refine ⟨?_, ?_, ?_⟩
  · intro hcp hmem
    rw [reduce_commit_sys_path ctx s aw e haw hsys hc]
    unfold commit_sys_entry CAS.add
    simp only [hcp, if_true, hmem, ite_false]
  · intro hcp
    rw [reduce_commit_sys_path ctx s aw e haw hsys hc]
    unfold commit_sys_entry
    simp only [hcp, Bool.false_eq_true, if_false, ite_false]
  · intro x
    rw [reduce_commit_sys_path ctx s aw e haw hsys hc]
    unfold commit_sys_entry CAS.add
    by_cases hcp : e.entryType.can_publish = true
    · by_cases hmem : e ∈ s.content_storage.addFails
      · simp only [hcp, if_true, hmem]
        simp
      · simp only [hcp, if_true, hmem, ite_false]
        simp
    · simp only [hcp, ite_false]
      simp

/-- C3 witness: committing the publishable system entry from the empty
snapshot stores it locally with no publish effect. -/
theorem C3_witness :
    reduce ctx0 store0 ⟨Action.commit sysEntry, "id7"⟩ =
      (.ok { store0 with content_storage :=
        { store0.content_storage with
            entries := store0.content_storage.entries ++ [sysEntry] } },
       [Effect.casAdd sysEntry]) :=
  (C3_commit_sys_entry ctx0 store0 ⟨Action.commit sysEntry, "id7"⟩ sysEntry
      rfl rfl (by decide)).1 rfl (by decide)

/-- C4: an application-entry commit whose declared type has no
definition in the loaded DNA, or whose definition forbids publishing,
is rejected with no state change and no effect on any collaborator. -/
theorem C4_app_schema_rejection :
    ∀ (ctx : Context) (s : DhtStore) (aw : ActionWrapper) (e : Entry)
      (st : State) (dna : Dna),
      aw.action = Action.commit e → e.entryType.is_sys = false →
      ctx.state = some st → st.nucleus.dna = some dna →
      s.content_storage.contains e.address = .ok false →
      (dna.get_entry_type_def e.entryType.to_string = none ∨
        ∃ d, dna.get_entry_type_def e.entryType.to_string = some d ∧
          d.sharing.can_publish = false) →
      reduce ctx s aw = (.ok s, []) := by
  intro ctx s aw e st dna haw hsys hst hd hc hrej
  rw [reduce_commit_app_path ctx s aw e haw hsys hc]
  unfold commit_app_entry
  simp only [hst, hd]
  rcases hrej with hdef | ⟨d, hdef, hsh⟩
  · simp only [hdef]
  · simp only [hdef, hsh, Bool.false_eq_true, if_false, ite_false]

/-- C4 witness: committing an app entry of undeclared type "comment"
against `dna0` (which only declares "post") is rejected unchanged. -/
theorem C4_witness :
    reduce ctx0 store0
        ⟨Action.commit { entryType := .App "comment", content := "c" }, "id8"⟩ =
      (.ok store0, []) :=
  C4_app_schema_rejection ctx0 store0
    ⟨Action.commit { entryType := .App "comment", content := "c" }, "id8"⟩
    { entryType := .App "comment", content := "c" }
    { nucleus := { dna := some dna0 } } dna0
    rfl rfl rfl rfl (by decide) (Or.inl (by decide))

/-- C5: an application-entry commit that satisfies both schema
preconditions first adds the entry to local content storage and
publishes only after that add succeeded (the trace lists the add before
the publish); when the add fails nothing is published and the snapshot
is unchanged. -/
theorem C5_app_commit_add_then_publish :
    ∀ (ctx : Context) (s : DhtStore) (aw : ActionWrapper) (e : Entry)
      (st : State) (dna : Dna) (d : EntryTypeDef),
      aw.action = Action.commit e → e.entryType.is_sys = false →
      ctx.state = some st → st.nucleus.dna = some dna →
      dna.get_entry_type_def e.entryType.to_string = some d →
      d.sharing.can_publish = true →
      s.content_storage.contains e.address = .ok false →
      ((e ∉ s.content_storage.addFails →
        reduce ctx s aw =
          (.ok { s with
              content_storage :=
                { s.content_storage with
                    entries := s.content_storage.entries ++ [e] },
              network :=
                { s.network with
                    published := s.network.published ++ [e] } },
           [Effect.casAdd e, Effect.publish e])) ∧
       (e ∈ s.content_storage.addFails →
        reduce ctx s aw = (.ok s, [Effect.casAdd e]))) := by
  intro ctx s aw e st dna d haw hsys hst hd hdef hsh hc
  constructor
  · intro hmem
    rw [reduce_commit_app_path ctx s aw e haw hsys hc]
    unfold commit_app_entry CAS.add Network.publish
    simp only [hst, hd, hdef, hsh, if_true, hmem, ite_false]
  · intro hmem
    rw [reduce_commit_app_path ctx s aw e haw hsys hc]
    unfold commit_app_entry CAS.add
    simp only [hst, hd, hdef, hsh, if_true, hmem, ite_true]

/-- C5 witness: committing `appEntry` (declared publishable in `dna0`)
from the empty snapshot stores it and then publishes it. -/
theorem C5_witness :
    reduce ctx0 store0 ⟨Action.commit appEntry, "id9"⟩ =
      (.ok { store0 with
          content_storage :=
            { store0.content_storage with
                entries := store0.content_storage.entries ++ [appEntry] },
          network :=
            { store0.network with
                published := store0.network.published ++ [appEntry] } },
       [Effect.casAdd appEntry, Effect.publish appEntry]) :=
  (C5_app_commit_add_then_publish ctx0 store0 ⟨Action.commit appEntry, "id9"⟩
      appEntry { nucleus := { dna := some dna0 } } dna0 { sharing := .Public }
      rfl rfl rfl rfl (by decide) rfl (by decide)).1 (by decide)

/-- C6: a GetEntry for a locally present address produces no change
and never touches the network; for an absent address exactly one
network get is traced, and a successful fetch caches the entry in a new
snapshot while a failed fetch or failed local add leaves the snapshot
unchanged. -/
theorem C6_get_entry_network_fallback :
    ∀ (ctx : Context) (s : DhtStore) (aw : ActionWrapper) (a : Address),
      aw.action = Action.getEntry a →
      ((s.content_storage.contains a = .ok true →
        reduce ctx s aw = (.ok s, [])) ∧
       (s.content_storage.contains a = .ok false →
        ((s.network.get a = none →
          reduce ctx s aw = (.ok s, [Effect.netGet a])) ∧
         (∀ c, s.network.get a = some c →
           Entry.from_content c ∉ s.content_storage.addFails →
           reduce ctx s aw =
             (.ok { s with content_storage :=
               { s.content_storage with
                   entries :=
                     s.content_storage.entries ++ [Entry.from_content c] } },
              [Effect.netGet a, Effect.casAdd (Entry.from_content c)]) ∧
           ({ s with content_storage :=
               { s.content_storage with
                   entries :=
                     s.content_storage.entries ++ [Entry.from_content c] } } :
             DhtStore) ≠ s) ∧
         (∀ c, s.network.get a = some c →
           Entry.from_content c ∈ s.content_storage.addFails →
           reduce ctx s aw =
             (.ok s, [Effect.netGet a,
                      Effect.casAdd (Entry.from_content c)]))))) := by
  intro ctx s aw a haw
  constructor
  · intro hc
    rw [reduce_via ctx s aw reduce_get_entry_from_network (resolve_getEntry haw)]
    unfold reduce_get_entry_from_network
    simp only [haw, hc]
  · intro hc
    refine ⟨?_, ?_, ?_⟩
    · intro hget
      rw [reduce_via ctx s aw reduce_get_entry_from_network (resolve_getEntry haw)]
      unfold reduce_get_entry_from_network
      simp only [haw, hc, hget]
    · intro c hget hmem
      constructor
      · rw [reduce_via ctx s aw reduce_get_entry_from_network (resolve_getEntry haw)]
        unfold reduce_get_entry_from_network CAS.add
        simp only [haw, hc, hget, hmem, ite_false]
      · intro heq
        have hlen := congrArg
          (fun t : DhtStore => t.content_storage.entries.length) heq
        simp only [List.length_append, List.length_singleton] at hlen
        omega
    · intro c hget hmem
      rw [reduce_via ctx s aw reduce_get_entry_from_network (resolve_getEntry haw)]
      unfold reduce_get_entry_from_network CAS.add
      simp only [haw, hc, hget, hmem, ite_true]

/-- C6 witness: fetching `appEntry`'s address from a peer that serves
it caches the entry locally. -/
theorem C6_witness :
    reduce ctx0
        { store0 with
            network := { sources := [(appEntry.address, appEntry)], published := [] } }
        ⟨Action.getEntry appEntry.address, "id10"⟩ =
      (.ok { { store0 with
                 network := { sources := [(appEntry.address, appEntry)],
                              published := [] } } with
               content_storage :=
                 { ({ store0 with
                       network := { sources := [(appEntry.address, appEntry)],
                                    published := [] } } :
                     DhtStore).content_storage with
                     entries :=
                       ({ store0 with
                           network := { sources := [(appEntry.address, appEntry)],
                                        published := [] } } :
                         DhtStore).content_storage.entries ++
                         [Entry.from_content appEntry] } },
       [Effect.netGet appEntry.address,
        Effect.casAdd (Entry.from_content appEntry)]) :=
  ((C6_get_entry_network_fallback ctx0
      { store0 with
          network := { sources := [(appEntry.address, appEntry)], published := [] } }
      ⟨Action.getEntry appEntry.address, "id10"⟩ appEntry.address rfl).2
    (by decide)).2.1 appEntry (by decide) (by decide) |>.1

/-- C7: the source performs no integrity re-check of the fetched
content's derived address: a GetEntry for `aReq`, answered with content
whose derived address differs from `aReq`, is cached anyway and yields
a changed snapshot — contradicting the claim that such a mismatch is
treated as a fetch failure. -/
theorem C7_integrity_mismatch_cached :
    decide (eBad.address = aReq) = false ∧
    reduce ctx0 mismatchStore ⟨Action.getEntry aReq, "id11"⟩ =
      (.ok { mismatchStore with content_storage :=
        { mismatchStore.content_storage with entries := [eBad] } },
       [Effect.netGet aReq, Effect.casAdd eBad]) ∧
    decide (({ mismatchStore with content_storage :=
        { mismatchStore.content_storage with entries := [eBad] } } : DhtStore)
      = mismatchStore) = false := by decide

/-- C2 witness: committing `appEntry` twice from the empty snapshot —
the first reduce yields the committed snapshot, and the theorem gives
that the second reduce leaves it unchanged with the address stored
once. -/
theorem C2_witness :
    reduce ctx0
        { content_storage := { entries := [appEntry], addFails := [], containsFails := [] }
          eav_storage := { rows := [] }
          network := { sources := [], published := [appEntry] } }
        ⟨Action.commit appEntry, "id5"⟩ =
      (.ok
        { content_storage := { entries := [appEntry], addFails := [], containsFails := [] }
          eav_storage := { rows := [] }
          network := { sources := [], published := [appEntry] } }, []) ∧
    ({ content_storage := { entries := [appEntry], addFails := [], containsFails := [] }
       eav_storage := { rows := [] }
       network := { sources := [], published := [appEntry] } } :
        DhtStore).content_storage.entries.countP
      (fun x => x.address = appEntry.address) = 1 :=
  (C2_commit_idempotence_rejection ctx0 store0
      ⟨Action.commit appEntry, "id5"⟩ appEntry rfl).2
    { content_storage := { entries := [appEntry], addFails := [], containsFails := [] }
      eav_storage := { rows := [] }
      network := { sources := [], published := [appEntry] } }
    [Effect.casAdd appEntry, Effect.publish appEntry]
    (by decide) (by decide)

/-- C8: an action outside the dispatch table (here the `other`
variant), and any action whose resolved reduction function returns
no-change, makes `reduce` return the very old snapshot (value identity
embeds the source's reference identity of the returned `Arc`). -/
theorem C8_unrecognized_noop :
    ∀ (ctx : Context) (s : DhtStore) (aw : ActionWrapper),
      (resolve_reducer aw = none → reduce ctx s aw = (.ok s, [])) ∧
      (∀ t, aw.action = Action.other t → reduce ctx s aw = (.ok s, [])) ∧
      (∀ (r : DhtReducer) (effs : List Effect), resolve_reducer aw = some r →
        r ctx s aw = (.ok none, effs) → reduce ctx s aw = (.ok s, effs)) := by
  intro ctx s aw
  refine ⟨?_, ?_, ?_⟩
  · intro h
    unfold reduce
    rw [h]
  · intro t h
    unfold reduce resolve_reducer
    rw [h]
  · intro r effs h1 h2
    unfold reduce
    rw [h1]
    simp only [h2]

/-- C8 witness: a concrete unrecognized action passes through
untouched. -/
theorem C8_witness :
    reduce ctx0 store0 ⟨Action.other "ExecuteZomeFunction", "id0"⟩ =
      (.ok store0, []) :=
  (C8_unrecognized_noop ctx0 store0
      ⟨Action.other "ExecuteZomeFunction", "id0"⟩).2.1 "ExecuteZomeFunction" rfl

/-- C9: AddLink and GetLinks reduce to no change in every state: the
old snapshot is returned and the effect trace is empty, so neither the
content storage nor the attribute store nor the network facade is
touched. -/
theorem C9_link_stubs_noop :
    ∀ (ctx : Context) (s : DhtStore) (aw : ActionWrapper),
      (∀ l, aw.action = Action.addLink l → reduce ctx s aw = (.ok s, [])) ∧
      (∀ q, aw.action = Action.getLinks q → reduce ctx s aw = (.ok s, [])) := by
  intro ctx s aw
  constructor
  · intro l h
    unfold reduce resolve_reducer reduce_add_link
    rw [h]
  · intro q h
    unfold reduce resolve_reducer reduce_get_links
    rw [h]

/-- C9 witness: concrete AddLink and GetLinks actions produce no
change. -/
theorem C9_witness :
    reduce ctx0 store0
        ⟨Action.addLink ⟨appEntry.address, sysEntry.address, "tag"⟩, "id1"⟩ =
      (.ok store0, []) ∧
    reduce ctx0 store0
        ⟨Action.getLinks ⟨appEntry.address, "tag"⟩, "id2"⟩ =
      (.ok store0, []) :=
  ⟨(C9_link_stubs_noop ctx0 store0
      ⟨Action.addLink ⟨appEntry.address, sysEntry.address, "tag"⟩, "id1"⟩).1 _ rfl,
   (C9_link_stubs_noop ctx0 store0
      ⟨Action.getLinks ⟨appEntry.address, "tag"⟩, "id2"⟩).2 _ rfl⟩

/-- C10: the facade's activity flag is a strict two-state machine:
start succeeds exactly from the inactive state, stop exactly from the
active state, each error leaves the flag unchanged, and call on an
inactive instance is refused without dispatching any zome function
call. -/
theorem C10_facade_two_state :
    ∀ h : Holochain,
      (h.active = false → h.start = (.ok (), { h with active := true })) ∧
      (h.active = true → h.start = (.error .InstanceActive, h)) ∧
      (h.active = true → h.stop = (.ok (), { h with active := false })) ∧
      (h.active = false → h.stop = (.error .InstanceNotActive, h)) ∧
      (∀ z c f p, h.active = false →
        h.call z c f p = (.error .InstanceNotActive, h, [])) := by
  intro h
  refine ⟨?_, ?_, ?_, ?_, ?_⟩
  · intro ha
    unfold Holochain.start
    simp [ha]
  · intro ha
    unfold Holochain.start
    simp [ha]
  · intro ha
    unfold Holochain.stop
    simp [ha]
  · intro ha
    unfold Holochain.stop
    simp [ha]
  · intro z c f p ha
    unfold Holochain.call
    simp [ha]

/-- C10 witness: a concrete inactive instance starts successfully, and
refuses `call` without dispatching a zome call. -/
theorem C10_witness :
    Holochain.start { inst := { answers := [] }, active := false } =
      (.ok (), { inst := { answers := [] }, active := true }) ∧
    Holochain.call { inst := { answers := [] }, active := false } "z" "c" "f" "p" =
      (.error .InstanceNotActive, { inst := { answers := [] }, active := false }, []) :=
  ⟨(C10_facade_two_state { inst := { answers := [] }, active := false }).1 rfl,
   (C10_facade_two_state
      { inst := { answers := [] }, active := false }).2.2.2.2 "z" "c" "f" "p" rfl⟩

/-- C1 counterexample: `reduce` is not total in the face of a failing
content-storage `contains`: on a well-formed Commit action whose
`contains` check errors, the source's `.unwrap()` panics (embedded as
`Except.error`), instead of returning the unchanged snapshot. -/
theorem C1_counterexample :
    (reduce ctx0 containsFailStore ⟨Action.commit appEntry, "id3"⟩).1 =
      Except.error "storage error" := by decide

end Holo
